import Mathlib

/-!
Verification of the `sirius-quickstart` shuffle circuit and fold driver.

The development shallowly embeds the two source files:

* `src/shuffle_api.rs` — the `ShuffleChip` gate definition (`configure`) and the
  plain circuit synthesis (`MyCircuit::synthesize`);
* `src/main.rs` — the step circuit (`MyStepCircuit::{configure, synthesize_step}`)
  and the fold-driver orchestration in `main`.

A PLONK constraint system is modelled as a state that counts allocated advice,
fixed and selector handles and records the registered shuffle arguments; region
synthesis is modelled as the trace of cell assignments and selector enablings it
performs.  The semantics of a registered shuffle argument (supplied by the
external proving engine) is multiset equality of the evaluated expression tuples
over the circuit rows.
-/

namespace SiriusQuickstart

/-- A column or selector handle: the index at which it was allocated. -/
abbrev ColId := Nat

/-- Expressions queryable inside a constraint, as used by
`ShuffleChip::configure` in `src/shuffle_api.rs` (selectors, advice and fixed
queries at a rotation, and products). -/
inductive Expr where
  | selector (s : ColId)
  | advice (c : ColId) (rot : Int)
  | fixed (c : ColId) (rot : Int)
  | mul (a b : Expr)
deriving DecidableEq

/-- The constraint-system state mutated by `configure`: counters for allocated
advice columns, fixed columns and selectors (`meta.advice_column()`,
`meta.fixed_column()`, `meta.complex_selector()`), and the list of registered
shuffle arguments (`meta.shuffle(name, ...)`), each a name together with the
list of (input expression, shuffle expression) pairs. -/
structure ConstraintSystem where
  num_advice : Nat
  num_fixed : Nat
  num_selectors : Nat
  shuffles : List (String × List (Expr × Expr))
deriving DecidableEq

/-- `meta.advice_column()`: returns a fresh advice column handle. -/
def ConstraintSystem.advice_column (cs : ConstraintSystem) : ColId × ConstraintSystem :=
  (cs.num_advice, { cs with num_advice := cs.num_advice + 1 })

/-- `meta.fixed_column()`: returns a fresh fixed column handle. -/
def ConstraintSystem.fixed_column (cs : ConstraintSystem) : ColId × ConstraintSystem :=
  (cs.num_fixed, { cs with num_fixed := cs.num_fixed + 1 })

/-- `meta.complex_selector()`: returns a fresh selector handle. -/
def ConstraintSystem.complex_selector (cs : ConstraintSystem) : ColId × ConstraintSystem :=
  (cs.num_selectors, { cs with num_selectors := cs.num_selectors + 1 })

/-- `meta.shuffle(name, |meta| pairs)`: registers one shuffle argument. -/
def ConstraintSystem.shuffle (cs : ConstraintSystem) (name : String)
    (pairs : List (Expr × Expr)) : ConstraintSystem :=
  { cs with shuffles := cs.shuffles ++ [(name, pairs)] }

/-- The configuration returned by `ShuffleChip::configure`
(`ShuffleConfig` in `src/shuffle_api.rs`). -/
structure ShuffleConfig where
  input_0 : ColId
  input_1 : ColId
  shuffle_0 : ColId
  shuffle_1 : ColId
  s_input : ColId
  s_shuffle : ColId
deriving DecidableEq

/-- `ShuffleChip::configure` (`src/shuffle_api.rs:53-83`): allocates the two
complex selectors (`s_shuffle` first, then `s_input`), registers the single
shuffle argument
`[(s_input * input_0, s_shuffle * shuffle_0), (s_input * input_1, s_shuffle * shuffle_1)]`
at rotation `cur` (0), and returns the configuration. -/
def ShuffleChip.configure (cs : ConstraintSystem)
    (input_0 input_1 shuffle_0 shuffle_1 : ColId) : ShuffleConfig × ConstraintSystem :=
  let r1 := cs.complex_selector
  let s_shuffle := r1.1
  let r2 := r1.2.complex_selector
  let s_input := r2.1
  let cs2 := r2.2.shuffle "shuffle"
    [(Expr.mul (Expr.selector s_input) (Expr.advice input_0 0),
      Expr.mul (Expr.selector s_shuffle) (Expr.advice shuffle_0 0)),
     (Expr.mul (Expr.selector s_input) (Expr.fixed input_1 0),
      Expr.mul (Expr.selector s_shuffle) (Expr.advice shuffle_1 0))]
  ({ input_0 := input_0, input_1 := input_1, shuffle_0 := shuffle_0,
     shuffle_1 := shuffle_1, s_input := s_input, s_shuffle := s_shuffle }, cs2)

/-- `MyStepCircuit::configure` (`src/main.rs:86-92`): allocates one advice
column, one fixed column and two further advice columns, then delegates to
`ShuffleChip::configure`.  (`MyCircuit::configure` in `src/shuffle_api.rs`
is identical.) -/
def MyStepCircuit.configure (cs : ConstraintSystem) : ShuffleConfig × ConstraintSystem :=
  let r1 := cs.advice_column
  let input_0 := r1.1
  let r2 := r1.2.fixed_column
  let input_1 := r2.1
  let r3 := r2.2.advice_column
  let shuffle_0 := r3.1
  let r4 := r3.2.advice_column
  let shuffle_1 := r4.1
  ShuffleChip.configure r4.2 input_0 input_1 shuffle_0 shuffle_1

/-- The pristine constraint system handed to `configure`. -/
def csEmpty : ConstraintSystem :=
  { num_advice := 0, num_fixed := 0, num_selectors := 0, shuffles := [] }

/-- The configuration of the actual circuit: `MyStepCircuit::configure` run on a
fresh constraint system. -/
def theConfig : ShuffleConfig := (MyStepCircuit.configure csEmpty).1

/-- The expression pairs of the one shuffle argument registered by the actual
circuit's `configure`. -/
def theShufflePairs : List (Expr × Expr) :=
  [(Expr.mul (Expr.selector theConfig.s_input) (Expr.advice theConfig.input_0 0),
    Expr.mul (Expr.selector theConfig.s_shuffle) (Expr.advice theConfig.shuffle_0 0)),
   (Expr.mul (Expr.selector theConfig.s_input) (Expr.fixed theConfig.input_1 0),
    Expr.mul (Expr.selector theConfig.s_shuffle) (Expr.advice theConfig.shuffle_1 0))]

theorem theShufflePairs_registered :
    (MyStepCircuit.configure csEmpty).2.shuffles = [("shuffle", theShufflePairs)] := rfl

/-- C5: the gate's `configure` allocates exactly two selectors, one advice and
one fixed column for the left pair and two advice columns for the right pair,
registers exactly one shuffle argument pairing the selector-gated left columns
against the selector-gated right columns, and returns the layout holding
exactly those four column handles and two selector handles. -/
theorem configure_allocations (cs : ConstraintSystem) :
    (MyStepCircuit.configure cs).2.num_selectors = cs.num_selectors + 2 ∧
    (MyStepCircuit.configure cs).2.num_advice = cs.num_advice + 3 ∧
    (MyStepCircuit.configure cs).2.num_fixed = cs.num_fixed + 1 ∧
    (MyStepCircuit.configure cs).1 =
      { input_0 := cs.num_advice, input_1 := cs.num_fixed,
        shuffle_0 := cs.num_advice + 1, shuffle_1 := cs.num_advice + 2,
        s_input := cs.num_selectors + 1, s_shuffle := cs.num_selectors } ∧
    (MyStepCircuit.configure cs).2.shuffles = cs.shuffles ++
      [("shuffle",
        [(Expr.mul (Expr.selector ((MyStepCircuit.configure cs).1.s_input))
            (Expr.advice ((MyStepCircuit.configure cs).1.input_0) 0),
          Expr.mul (Expr.selector ((MyStepCircuit.configure cs).1.s_shuffle))
            (Expr.advice ((MyStepCircuit.configure cs).1.shuffle_0) 0)),
         (Expr.mul (Expr.selector ((MyStepCircuit.configure cs).1.s_input))
            (Expr.fixed ((MyStepCircuit.configure cs).1.input_1) 0),
          Expr.mul (Expr.selector ((MyStepCircuit.configure cs).1.s_shuffle))
            (Expr.advice ((MyStepCircuit.configure cs).1.shuffle_1) 0))])] :=
  ⟨rfl, rfl, rfl, rfl, rfl⟩

theorem configure_allocations_witness :
    (MyStepCircuit.configure csEmpty).2.num_selectors = 2 ∧
    (MyStepCircuit.configure csEmpty).1.s_shuffle = 0 ∧
    (MyStepCircuit.configure csEmpty).2.shuffles.length = 1 :=
  ⟨(configure_allocations csEmpty).1, by rw [(configure_allocations csEmpty).2.2.2.1]; rfl,
   by rw [(configure_allocations csEmpty).2.2.2.2]; rfl⟩

/-!
## Semantics of the registered shuffle argument

The proving engine checks a registered shuffle argument by comparing, over the
circuit rows `0, …, n-1`, the multiset of evaluated input-expression tuples
against the multiset of evaluated shuffle-expression tuples (multiset equality,
independent of row order).  An assignment gives each advice cell, fixed cell and
selector cell a value; a queried selector evaluates to `1` when enabled and `0`
otherwise, and a query at rotation `r` on row `i` reads row `i + r`.
-/

/-- A full assignment of the circuit's table. -/
structure Assignment (F : Type) where
  advice : ColId → Int → F
  fixed : ColId → Int → F
  selector : ColId → Int → Bool

/-- Evaluation of a queried expression on a given row under an assignment. -/
def Expr.eval {F : Type} [Field F] (asg : Assignment F) (row : Int) : Expr → F
  | Expr.selector s => if asg.selector s row then 1 else 0
  | Expr.advice c r => asg.advice c (row + r)
  | Expr.fixed c r => asg.fixed c (row + r)
  | Expr.mul a b => Expr.eval asg row a * Expr.eval asg row b

/-- The multiset of evaluated left-hand (input-side) tuples of a shuffle
argument over rows `0, …, n-1`. -/
def shuffleLhs {F : Type} [Field F] (pairs : List (Expr × Expr)) (asg : Assignment F)
    (n : ℕ) : Multiset (List F) :=
  (((List.range n).map fun (i : ℕ) => pairs.map fun p => Expr.eval asg (i : Int) p.1 :
    List (List F)) : Multiset (List F))

/-- The multiset of evaluated right-hand (shuffle-side) tuples of a shuffle
argument over rows `0, …, n-1`. -/
def shuffleRhs {F : Type} [Field F] (pairs : List (Expr × Expr)) (asg : Assignment F)
    (n : ℕ) : Multiset (List F) :=
  (((List.range n).map fun (i : ℕ) => pairs.map fun p => Expr.eval asg (i : Int) p.2 :
    List (List F)) : Multiset (List F))

/-- Satisfaction of a shuffle argument on `n` rows: the two tuple multisets
coincide. -/
def shuffleSat {F : Type} [Field F] (pairs : List (Expr × Expr)) (asg : Assignment F)
    (n : ℕ) : Prop :=
  shuffleLhs pairs asg n = shuffleRhs pairs asg n

instance decShuffleSat {F : Type} [Field F] [DecidableEq F] (pairs : List (Expr × Expr))
    (asg : Assignment F) (n : ℕ) : Decidable (shuffleSat pairs asg n) :=
  inferInstanceAs (Decidable (shuffleLhs pairs asg n = shuffleRhs pairs asg n))

/-- Reindexing a map over all of `Fin n` by a permutation leaves the multiset of
values unchanged. -/
theorem multiset_map_perm_reindex {α : Type} (n : ℕ) (π : Equiv.Perm (Fin n))
    (f : Fin n → α) :
    ((((List.finRange n).map fun j => f (π j)) : List α) : Multiset α) =
    (((List.finRange n).map f : List α) : Multiset α) := by
  apply Multiset.coe_eq_coe.mpr
  have h1 : ((List.finRange n).map fun j => f (π j)) = ((List.finRange n).map π).map f := by
    rw [List.map_map]; rfl
  rw [h1]
  apply List.Perm.map
  apply (List.perm_ext_iff_of_nodup
    (List.Nodup.map π.injective (List.nodup_finRange n)) (List.nodup_finRange n)).mpr
  intro a
  constructor
  · intro _
    exact List.mem_finRange a
  · intro _
    exact List.mem_map.mpr ⟨π.symm a, List.mem_finRange _, Equiv.apply_symm_apply π a⟩

/-- Completeness of the registered shuffle argument: an assignment whose
shuffle-side pair rows are the input-side pair rows reindexed by a permutation
`π`, with both selectors enabled on the `n` loaded rows, satisfies the
constraint. -/
theorem shuffleSat_of_perm {F : Type} [Field F] [DecidableEq F] (asg : Assignment F)
    (n : ℕ) (π : Equiv.Perm (Fin n))
    (hsI : ∀ i : ℕ, i < n → asg.selector theConfig.s_input (i : Int) = true)
    (hsS : ∀ i : ℕ, i < n → asg.selector theConfig.s_shuffle (i : Int) = true)
    (h0 : ∀ j : Fin n, asg.advice theConfig.shuffle_0 (j.val : Int) =
        asg.advice theConfig.input_0 (((π j).val : ℕ) : Int))
    (h1 : ∀ j : Fin n, asg.advice theConfig.shuffle_1 (j.val : Int) =
        asg.fixed theConfig.input_1 (((π j).val : ℕ) : Int)) :
    shuffleSat theShufflePairs asg n := by
  unfold shuffleSat shuffleLhs shuffleRhs
  rw [← List.map_coe_finRange n, List.map_map, List.map_map]
  have key : ∀ j : Fin n,
      (theShufflePairs.map fun p => Expr.eval asg ((j.val : ℕ) : Int) p.2) =
      (theShufflePairs.map fun p => Expr.eval asg ((((π j).val : ℕ)) : Int) p.1) := by
    intro j
    simp only [theShufflePairs, List.map_cons, List.map_nil, Expr.eval, add_zero]
    rw [hsS j.val j.isLt, hsI (π j).val (π j).isLt, h0 j, h1 j]
  have hcongr : List.map (fun (j : Fin n) =>
        theShufflePairs.map fun p => Expr.eval asg ((j.val : ℕ) : Int) p.2) (List.finRange n)
      = List.map (fun (j : Fin n) =>
        theShufflePairs.map fun p => Expr.eval asg (((π j).val : ℕ) : Int) p.1)
        (List.finRange n) :=
    List.map_congr_left (fun j _ => key j)
  show ((List.map (fun (j : Fin n) =>
        theShufflePairs.map fun p => Expr.eval asg ((j.val : ℕ) : Int) p.1)
        (List.finRange n) : List (List F)) : Multiset (List F))
      = ((List.map (fun (j : Fin n) =>
        theShufflePairs.map fun p => Expr.eval asg ((j.val : ℕ) : Int) p.2)
        (List.finRange n) : List (List F)) : Multiset (List F))
  rw [hcongr]
  exact (multiset_map_perm_reindex n π
    (fun j : Fin n => theShufflePairs.map fun p => Expr.eval asg ((j.val : ℕ) : Int) p.1)).symm

/-- Soundness of the registered shuffle argument: if some tuple occurs strictly
more often on the input side than on the shuffle side, the constraint is
unsatisfied. -/
theorem not_shuffleSat_of_missing {F : Type} [Field F] [DecidableEq F]
    (pairs : List (Expr × Expr)) (asg : Assignment F) (n : ℕ) (t : List F)
    (h : Multiset.count t (shuffleRhs pairs asg n) <
      Multiset.count t (shuffleLhs pairs asg n)) :
    ¬ shuffleSat pairs asg n := by
  intro hs
  unfold shuffleSat at hs
  rw [hs] at h
  exact Nat.lt_irrefl _ h

/-- C1: the shuffle constraint registered by the gate is complete — for every
assignment whose right-side (shuffle) pairs are the left-side (input) pairs
reordered by a permutation `π` of the row indices, with the selectors enabled
on the loaded rows, the constraint is satisfied — and sound — every assignment
whose right-side tuple multiset is missing at least one left-side tuple
(strict subset by multiplicity) leaves the constraint unsatisfied. -/
theorem shuffle_gate_complete_and_sound (F : Type) [Field F] [DecidableEq F] :
    (∀ (n : ℕ) (asg : Assignment F) (π : Equiv.Perm (Fin n)),
      (∀ i : ℕ, i < n → asg.selector theConfig.s_input (i : Int) = true) →
      (∀ i : ℕ, i < n → asg.selector theConfig.s_shuffle (i : Int) = true) →
      (∀ j : Fin n, asg.advice theConfig.shuffle_0 (j.val : Int) =
          asg.advice theConfig.input_0 (((π j).val : ℕ) : Int)) →
      (∀ j : Fin n, asg.advice theConfig.shuffle_1 (j.val : Int) =
          asg.fixed theConfig.input_1 (((π j).val : ℕ) : Int)) →
      shuffleSat theShufflePairs asg n) ∧
    (∀ (n : ℕ) (asg : Assignment F) (t : List F),
      Multiset.count t (shuffleRhs theShufflePairs asg n) <
        Multiset.count t (shuffleLhs theShufflePairs asg n) →
      ¬ shuffleSat theShufflePairs asg n) :=
  ⟨fun n asg π hc1 hc2 hc3 hc4 => shuffleSat_of_perm asg n π hc1 hc2 hc3 hc4,
   fun n asg t h => not_shuffleSat_of_missing theShufflePairs asg n t h⟩

instance fact_prime_101 : Fact (Nat.Prime 101) := ⟨by norm_num⟩

/-- A concrete satisfying assignment over `ZMod 101`: left pairs
`(5,50), (7,70)`, right pairs `(7,70), (5,50)`. -/
def wAsgComplete : Assignment (ZMod 101) where
  advice := fun c r =>
    if c = 0 then (if r = 0 then 5 else if r = 1 then 7 else 0)
    else if c = 1 then (if r = 0 then 7 else if r = 1 then 5 else 0)
    else if c = 2 then (if r = 0 then 70 else if r = 1 then 50 else 0)
    else 0
  fixed := fun c r =>
    if c = 0 then (if r = 0 then 50 else if r = 1 then 70 else 0) else 0
  selector := fun _ r => decide (0 ≤ r ∧ r < 2)

/-- A concrete assignment over `ZMod 101` whose right side is missing the left
tuple `(2,20)`: left pairs `(1,10), (2,20)`, right pairs `(1,10), (1,10)`. -/
def wAsgMissing : Assignment (ZMod 101) where
  advice := fun c r =>
    if c = 0 then (if r = 0 then 1 else if r = 1 then 2 else 0)
    else if c = 1 then 1
    else if c = 2 then 10
    else 0
  fixed := fun c r =>
    if c = 0 then (if r = 0 then 10 else if r = 1 then 20 else 0) else 0
  selector := fun _ r => decide (0 ≤ r ∧ r < 2)

theorem shuffle_gate_complete_and_sound_witness :
    shuffleSat theShufflePairs wAsgComplete 2 ∧ ¬ shuffleSat theShufflePairs wAsgMissing 2 :=
  ⟨(shuffle_gate_complete_and_sound (ZMod 101)).1 2 wAsgComplete (Equiv.swap 0 1)
      (by decide) (by decide) (by decide) (by decide),
   (shuffle_gate_complete_and_sound (ZMod 101)).2 2 wAsgMissing [2, 20] (by decide)⟩

/-!
## Region synthesis as an assignment trace

`MyStepCircuit::synthesize_step` (`src/main.rs:99-140`) and
`MyCircuit::synthesize` (`src/shuffle_api.rs:110-148`) run two
`assign_region` calls, "load inputs" and "load shuffles"; each iterates the
zipped pair of column vectors with `enumerate` and performs cell assignments
and selector enablings.  We model a region as the list of operations it
performs, and the layouter as a row-capacity check (an assignment outside the
declared rows is the fatal synthesis error).
-/

/-- `halo2` witness value: known or unknown. -/
inductive Value (F : Type) where
  | unknown
  | known (x : F)
deriving DecidableEq

/-- An assigned cell handle: the column, the row and the value assigned. -/
structure AssignedCell (F : Type) where
  column : ColId
  row : Nat
  value : Value F
deriving DecidableEq

/-- One operation performed inside a region closure. -/
inductive RegionOp (F : Type) where
  | assignAdvice (col : ColId) (row : Nat) (v : Value F)
  | assignFixed (col : ColId) (row : Nat) (v : Value F)
  | enable (sel : ColId) (row : Nat)
  | copyAdviceFrom (src : AssignedCell F) (col : ColId) (row : Nat)
deriving DecidableEq

/-- The row an operation touches. -/
def RegionOp.row {F : Type} : RegionOp F → Nat
  | RegionOp.assignAdvice _ r _ => r
  | RegionOp.assignFixed _ r _ => r
  | RegionOp.enable _ r => r
  | RegionOp.copyAdviceFrom _ _ r => r

/-- The step-circuit state (`MyStepCircuit` in `src/main.rs`; `MyCircuit` in
`src/shuffle_api.rs` has the same fields). -/
structure MyStepCircuit (F : Type) where
  input_0 : List (Value F)
  input_1 : List F
  shuffle_0 : List (Value F)
  shuffle_1 : List (Value F)

/-- The "load inputs" region body: for each `(i, (input_0, input_1))` in
`input_0.zip(input_1).enumerate()`, assign the left advice cell, assign the
left fixed cell, enable `s_input` at row `i`. -/
def loadInputsOps {F : Type} (cfg : ShuffleConfig) (c : MyStepCircuit F) :
    List (RegionOp F) :=
  ((c.input_0.zip c.input_1).enum).flatMap fun p =>
    [RegionOp.assignAdvice cfg.input_0 p.1 p.2.1,
     RegionOp.assignFixed cfg.input_1 p.1 (Value.known p.2.2),
     RegionOp.enable cfg.s_input p.1]

/-- The "load shuffles" region body: for each `(i, (shuffle_0, shuffle_1))` in
`shuffle_0.zip(shuffle_1).enumerate()`, assign both right advice cells and
enable `s_shuffle` at row `i`. -/
def loadShufflesOps {F : Type} (cfg : ShuffleConfig) (c : MyStepCircuit F) :
    List (RegionOp F) :=
  ((c.shuffle_0.zip c.shuffle_1).enum).flatMap fun p =>
    [RegionOp.assignAdvice cfg.shuffle_0 p.1 p.2.1,
     RegionOp.assignAdvice cfg.shuffle_1 p.1 p.2.2,
     RegionOp.enable cfg.s_shuffle p.1]

/-- The two named regions `synthesize_step` lays out, in order. -/
def synthesizeRegions {F : Type} (cfg : ShuffleConfig) (c : MyStepCircuit F) :
    List (String × List (RegionOp F)) :=
  [("load inputs", loadInputsOps cfg c), ("load shuffles", loadShufflesOps cfg c)]

/-- The claim-side description of the "load inputs" region: per row `i`, an
advice assignment of the supplied value, a fixed assignment of the supplied
constant, and an `s_input` enabling. -/
def loadInputsSpecOps {F : Type} (cfg : ShuffleConfig) :
    Nat → List (Value F) → List F → List (RegionOp F)
  | _, [], _ => []
  | _, _ :: _, [] => []
  | i, v :: vs, x :: xs =>
    RegionOp.assignAdvice cfg.input_0 i v ::
    RegionOp.assignFixed cfg.input_1 i (Value.known x) ::
    RegionOp.enable cfg.s_input i ::
    loadInputsSpecOps cfg (i + 1) vs xs

/-- The claim-side description of the "load shuffles" region: per row `i`, two
advice assignments of the supplied values and an `s_shuffle` enabling. -/
def loadShufflesSpecOps {F : Type} (cfg : ShuffleConfig) :
    Nat → List (Value F) → List (Value F) → List (RegionOp F)
  | _, [], _ => []
  | _, _ :: _, [] => []
  | i, v :: vs, x :: xs =>
    RegionOp.assignAdvice cfg.shuffle_0 i v ::
    RegionOp.assignAdvice cfg.shuffle_1 i x ::
    RegionOp.enable cfg.s_shuffle i ::
    loadShufflesSpecOps cfg (i + 1) vs xs

theorem loadInputs_enum_eq {F : Type} (cfg : ShuffleConfig) :
    ∀ (k : Nat) (a : List (Value F)) (b : List F),
      ((a.zip b).enumFrom k).flatMap (fun p =>
        [RegionOp.assignAdvice cfg.input_0 p.1 p.2.1,
         RegionOp.assignFixed cfg.input_1 p.1 (Value.known p.2.2),
         RegionOp.enable cfg.s_input p.1]) = loadInputsSpecOps cfg k a b
  | _, [], _ => rfl
  | _, _ :: _, [] => rfl
  | k, v :: vs, x :: xs => by
    show RegionOp.assignAdvice cfg.input_0 k v ::
        RegionOp.assignFixed cfg.input_1 k (Value.known x) ::
        RegionOp.enable cfg.s_input k ::
        ((vs.zip xs).enumFrom (k + 1)).flatMap (fun p =>
          [RegionOp.assignAdvice cfg.input_0 p.1 p.2.1,
           RegionOp.assignFixed cfg.input_1 p.1 (Value.known p.2.2),
           RegionOp.enable cfg.s_input p.1])
      = loadInputsSpecOps cfg k (v :: vs) (x :: xs)
    rw [loadInputs_enum_eq cfg (k + 1) vs xs]
    rfl

theorem loadShuffles_enum_eq {F : Type} (cfg : ShuffleConfig) :
    ∀ (k : Nat) (a : List (Value F)) (b : List (Value F)),
      ((a.zip b).enumFrom k).flatMap (fun p =>
        [RegionOp.assignAdvice cfg.shuffle_0 p.1 p.2.1,
         RegionOp.assignAdvice cfg.shuffle_1 p.1 p.2.2,
         RegionOp.enable cfg.s_shuffle p.1]) = loadShufflesSpecOps cfg k a b
  | _, [], _ => rfl
  | _, _ :: _, [] => rfl
  | k, v :: vs, x :: xs => by
    show RegionOp.assignAdvice cfg.shuffle_0 k v ::
        RegionOp.assignAdvice cfg.shuffle_1 k x ::
        RegionOp.enable cfg.s_shuffle k ::
        ((vs.zip xs).enumFrom (k + 1)).flatMap (fun p =>
          [RegionOp.assignAdvice cfg.shuffle_0 p.1 p.2.1,
           RegionOp.assignAdvice cfg.shuffle_1 p.1 p.2.2,
           RegionOp.enable cfg.s_shuffle p.1])
      = loadShufflesSpecOps cfg k (v :: vs) (x :: xs)
    rw [loadShuffles_enum_eq cfg (k + 1) vs xs]
    rfl

theorem loadInputsOps_eq {F : Type} (cfg : ShuffleConfig) (c : MyStepCircuit F) :
    loadInputsOps cfg c = loadInputsSpecOps cfg 0 c.input_0 c.input_1 :=
  loadInputs_enum_eq cfg 0 c.input_0 c.input_1

theorem loadShufflesOps_eq {F : Type} (cfg : ShuffleConfig) (c : MyStepCircuit F) :
    loadShufflesOps cfg c = loadShufflesSpecOps cfg 0 c.shuffle_0 c.shuffle_1 :=
  loadShuffles_enum_eq cfg 0 c.shuffle_0 c.shuffle_1

/-- C4: the unchained synthesize performs exactly the two region assignments
"load inputs" and "load shuffles"; the first assigns, for each row `i`, the
left advice cell from the supplied value and the left fixed cell from the
supplied constant and enables `s_input` at row `i`; the second assigns, for
each row `i`, both right advice cells from the supplied values and enables
`s_shuffle` at row `i`. -/
theorem synthesize_regions_shape (F : Type) (c : MyStepCircuit F) :
    (synthesizeRegions theConfig c).length = 2 ∧
    synthesizeRegions theConfig c =
      [("load inputs", loadInputsSpecOps theConfig 0 c.input_0 c.input_1),
       ("load shuffles", loadShufflesSpecOps theConfig 0 c.shuffle_0 c.shuffle_1)] :=
  ⟨rfl, by
    unfold synthesizeRegions
    rw [loadInputsOps_eq, loadShufflesOps_eq]⟩

/-- A concrete well-formed step circuit over `Int`. -/
def cWitnessA : MyStepCircuit Int :=
  { input_0 := [Value.known 3, Value.known 5], input_1 := [30, 50],
    shuffle_0 := [Value.known 5, Value.known 3],
    shuffle_1 := [Value.known 50, Value.known 30] }

theorem synthesize_regions_shape_witness :
    synthesizeRegions theConfig cWitnessA =
      [("load inputs", loadInputsSpecOps theConfig 0 cWitnessA.input_0 cWitnessA.input_1),
       ("load shuffles", loadShufflesSpecOps theConfig 0 cWitnessA.shuffle_0 cWitnessA.shuffle_1)] :=
  (synthesize_regions_shape Int cWitnessA).2

/-- Rows at which a region trace assigns the given advice column. -/
def adviceAssignRows {F : Type} (col : ColId) (ops : List (RegionOp F)) : List Nat :=
  ops.filterMap fun op => match op with
    | RegionOp.assignAdvice c r _ => if c = col then some r else none
    | _ => none

/-- Rows at which a region trace assigns the given fixed column. -/
def fixedAssignRows {F : Type} (col : ColId) (ops : List (RegionOp F)) : List Nat :=
  ops.filterMap fun op => match op with
    | RegionOp.assignFixed c r _ => if c = col then some r else none
    | _ => none

/-- Rows at which a region trace enables the given selector. -/
def enabledRows {F : Type} (sel : ColId) (ops : List (RegionOp F)) : List Nat :=
  ops.filterMap fun op => match op with
    | RegionOp.enable s r => if s = sel then some r else none
    | _ => none

theorem inputs_adviceRows {F : Type} :
    ∀ (k : Nat) (a : List (Value F)) (b : List F),
      adviceAssignRows theConfig.input_0 (loadInputsSpecOps theConfig k a b)
        = List.range' k (min a.length b.length)
  | _, [], _ => by simp [adviceAssignRows, fixedAssignRows, enabledRows, loadInputsSpecOps, loadShufflesSpecOps]
  | _, _ :: _, [] => by simp [adviceAssignRows, fixedAssignRows, enabledRows, loadInputsSpecOps, loadShufflesSpecOps]
  | k, v :: vs, x :: xs => by
    have ih := inputs_adviceRows (k + 1) vs xs
    show k :: adviceAssignRows theConfig.input_0 (loadInputsSpecOps theConfig (k + 1) vs xs)
      = List.range' k (min (vs.length + 1) (xs.length + 1))
    rw [Nat.succ_min_succ, ih]
    rfl

theorem inputs_fixedRows {F : Type} :
    ∀ (k : Nat) (a : List (Value F)) (b : List F),
      fixedAssignRows theConfig.input_1 (loadInputsSpecOps theConfig k a b)
        = List.range' k (min a.length b.length)
  | _, [], _ => by simp [adviceAssignRows, fixedAssignRows, enabledRows, loadInputsSpecOps, loadShufflesSpecOps]
  | _, _ :: _, [] => by simp [adviceAssignRows, fixedAssignRows, enabledRows, loadInputsSpecOps, loadShufflesSpecOps]
  | k, v :: vs, x :: xs => by
    have ih := inputs_fixedRows (k + 1) vs xs
    show k :: fixedAssignRows theConfig.input_1 (loadInputsSpecOps theConfig (k + 1) vs xs)
      = List.range' k (min (vs.length + 1) (xs.length + 1))
    rw [Nat.succ_min_succ, ih]
    rfl

theorem inputs_enabledRows {F : Type} :
    ∀ (k : Nat) (a : List (Value F)) (b : List F),
      enabledRows theConfig.s_input (loadInputsSpecOps theConfig k a b)
        = List.range' k (min a.length b.length)
  | _, [], _ => by simp [adviceAssignRows, fixedAssignRows, enabledRows, loadInputsSpecOps, loadShufflesSpecOps]
  | _, _ :: _, [] => by simp [adviceAssignRows, fixedAssignRows, enabledRows, loadInputsSpecOps, loadShufflesSpecOps]
  | k, v :: vs, x :: xs => by
    have ih := inputs_enabledRows (k + 1) vs xs
    show k :: enabledRows theConfig.s_input (loadInputsSpecOps theConfig (k + 1) vs xs)
      = List.range' k (min (vs.length + 1) (xs.length + 1))
    rw [Nat.succ_min_succ, ih]
    rfl

theorem shuffles_advice0Rows {F : Type} :
    ∀ (k : Nat) (a : List (Value F)) (b : List (Value F)),
      adviceAssignRows theConfig.shuffle_0 (loadShufflesSpecOps theConfig k a b)
        = List.range' k (min a.length b.length)
  | _, [], _ => by simp [adviceAssignRows, fixedAssignRows, enabledRows, loadInputsSpecOps, loadShufflesSpecOps]
  | _, _ :: _, [] => by simp [adviceAssignRows, fixedAssignRows, enabledRows, loadInputsSpecOps, loadShufflesSpecOps]
  | k, v :: vs, x :: xs => by
    have ih := shuffles_advice0Rows (k + 1) vs xs
    show k :: adviceAssignRows theConfig.shuffle_0 (loadShufflesSpecOps theConfig (k + 1) vs xs)
      = List.range' k (min (vs.length + 1) (xs.length + 1))
    rw [Nat.succ_min_succ, ih]
    rfl

theorem shuffles_advice1Rows {F : Type} :
    ∀ (k : Nat) (a : List (Value F)) (b : List (Value F)),
      adviceAssignRows theConfig.shuffle_1 (loadShufflesSpecOps theConfig k a b)
        = List.range' k (min a.length b.length)
  | _, [], _ => by simp [adviceAssignRows, fixedAssignRows, enabledRows, loadInputsSpecOps, loadShufflesSpecOps]
  | _, _ :: _, [] => by simp [adviceAssignRows, fixedAssignRows, enabledRows, loadInputsSpecOps, loadShufflesSpecOps]
  | k, v :: vs, x :: xs => by
    have ih := shuffles_advice1Rows (k + 1) vs xs
    show k :: adviceAssignRows theConfig.shuffle_1 (loadShufflesSpecOps theConfig (k + 1) vs xs)
      = List.range' k (min (vs.length + 1) (xs.length + 1))
    rw [Nat.succ_min_succ, ih]
    rfl

theorem shuffles_enabledRows {F : Type} :
    ∀ (k : Nat) (a : List (Value F)) (b : List (Value F)),
      enabledRows theConfig.s_shuffle (loadShufflesSpecOps theConfig k a b)
        = List.range' k (min a.length b.length)
  | _, [], _ => by simp [adviceAssignRows, fixedAssignRows, enabledRows, loadInputsSpecOps, loadShufflesSpecOps]
  | _, _ :: _, [] => by simp [adviceAssignRows, fixedAssignRows, enabledRows, loadInputsSpecOps, loadShufflesSpecOps]
  | k, v :: vs, x :: xs => by
    have ih := shuffles_enabledRows (k + 1) vs xs
    show k :: enabledRows theConfig.s_shuffle (loadShufflesSpecOps theConfig (k + 1) vs xs)
      = List.range' k (min (vs.length + 1) (xs.length + 1))
    rw [Nat.succ_min_succ, ih]
    rfl

theorem inputs_rows_lt {F : Type} :
    ∀ (k : Nat) (a : List (Value F)) (b : List F),
      ∀ op ∈ loadInputsSpecOps theConfig k a b, op.row < k + min a.length b.length
  | _, [], _ => by intro op hop; cases hop
  | _, _ :: _, [] => by intro op hop; cases hop
  | k, v :: vs, x :: xs => by
    intro op hop
    simp only [loadInputsSpecOps, List.mem_cons] at hop
    rcases hop with h | h | h | h
    · subst h; show k < k + min (vs.length + 1) (xs.length + 1); omega
    · subst h; show k < k + min (vs.length + 1) (xs.length + 1); omega
    · subst h; show k < k + min (vs.length + 1) (xs.length + 1); omega
    · have := inputs_rows_lt (k + 1) vs xs op h
      simp only [List.length_cons]
      omega

theorem shuffles_rows_lt {F : Type} :
    ∀ (k : Nat) (a : List (Value F)) (b : List (Value F)),
      ∀ op ∈ loadShufflesSpecOps theConfig k a b, op.row < k + min a.length b.length
  | _, [], _ => by intro op hop; cases hop
  | _, _ :: _, [] => by intro op hop; cases hop
  | k, v :: vs, x :: xs => by
    intro op hop
    simp only [loadShufflesSpecOps, List.mem_cons] at hop
    rcases hop with h | h | h | h
    · subst h; show k < k + min (vs.length + 1) (xs.length + 1); omega
    · subst h; show k < k + min (vs.length + 1) (xs.length + 1); omega
    · subst h; show k < k + min (vs.length + 1) (xs.length + 1); omega
    · have := shuffles_rows_lt (k + 1) vs xs op h
      simp only [List.length_cons]
      omega

/-- The one fatal error synthesis can produce in this component: a cell write
outside the declared row capacity. -/
inductive SynthError where
  | notEnoughRowsAvailable
deriving DecidableEq

/-- Running a region against a row capacity: every written row must fit. -/
def runRegion {F : Type} (cap : Nat) (ops : List (RegionOp F)) : Except SynthError Unit :=
  if ops.all fun op => decide (op.row < cap) then Except.ok ()
  else Except.error SynthError.notEnoughRowsAvailable

theorem runRegion_ok {F : Type} (cap : Nat) (ops : List (RegionOp F))
    (h : ∀ op ∈ ops, op.row < cap) : runRegion cap ops = Except.ok () := by
  unfold runRegion
  rw [if_pos]
  exact List.all_eq_true.mpr fun op hop => decide_eq_true (h op hop)

/-- The outcome of `synthesize_step`: a returned output vector, a synthesis
error, or abnormal termination. -/
inductive StepOutcome (F : Type) where
  | ok (z_out : List (AssignedCell F))
  | err (e : SynthError)
  | panicked
deriving DecidableEq

/-- `MyStepCircuit::synthesize_step` (`src/main.rs:99-140`): lay out the
"load inputs" region, then the "load shuffles" region (each early-returning a
synthesis error), then hit the trailing `todo!()`. -/
def synthesize_step {F : Type} (cap : Nat) (cfg : ShuffleConfig) (c : MyStepCircuit F) :
    StepOutcome F :=
  match runRegion cap (loadInputsOps cfg c) with
  | Except.error e => StepOutcome.err e
  | Except.ok _ =>
    match runRegion cap (loadShufflesOps cfg c) with
    | Except.error e => StepOutcome.err e
    | Except.ok _ => StepOutcome.panicked

/-- C10: when the two sequences feeding a region have unequal lengths, the
`zip`-with-`enumerate` iteration assigns exactly `min` of the two lengths rows
in that region — the surplus elements of the longer sequence are silently
ignored —, enables the region's selector exactly at rows `0 .. min - 1`, and
raises no synthesis error for the mismatch (within capacity the outcome is the
trailing placeholder, not an error). -/
theorem synthesize_min_rows (F : Type) (c : MyStepCircuit F) (cap : Nat)
    (hcap1 : min c.input_0.length c.input_1.length ≤ cap)
    (hcap2 : min c.shuffle_0.length c.shuffle_1.length ≤ cap) :
    adviceAssignRows theConfig.input_0 (loadInputsOps theConfig c)
      = List.range (min c.input_0.length c.input_1.length) ∧
    fixedAssignRows theConfig.input_1 (loadInputsOps theConfig c)
      = List.range (min c.input_0.length c.input_1.length) ∧
    enabledRows theConfig.s_input (loadInputsOps theConfig c)
      = List.range (min c.input_0.length c.input_1.length) ∧
    adviceAssignRows theConfig.shuffle_0 (loadShufflesOps theConfig c)
      = List.range (min c.shuffle_0.length c.shuffle_1.length) ∧
    adviceAssignRows theConfig.shuffle_1 (loadShufflesOps theConfig c)
      = List.range (min c.shuffle_0.length c.shuffle_1.length) ∧
    enabledRows theConfig.s_shuffle (loadShufflesOps theConfig c)
      = List.range (min c.shuffle_0.length c.shuffle_1.length) ∧
    synthesize_step cap theConfig c = StepOutcome.panicked := by
  have h1 : runRegion cap (loadInputsOps theConfig c) = Except.ok () := by
    rw [loadInputsOps_eq]
    refine runRegion_ok cap _ fun op hop => lt_of_lt_of_le ?_ hcap1
    have := inputs_rows_lt 0 c.input_0 c.input_1 op hop
    omega
  have h2 : runRegion cap (loadShufflesOps theConfig c) = Except.ok () := by
    rw [loadShufflesOps_eq]
    refine runRegion_ok cap _ fun op hop => lt_of_lt_of_le ?_ hcap2
    have := shuffles_rows_lt 0 c.shuffle_0 c.shuffle_1 op hop
    omega
  refine ⟨?_, ?_, ?_, ?_, ?_, ?_, ?_⟩
  · rw [loadInputsOps_eq, inputs_adviceRows, List.range_eq_range']
  · rw [loadInputsOps_eq, inputs_fixedRows, List.range_eq_range']
  · rw [loadInputsOps_eq, inputs_enabledRows, List.range_eq_range']
  · rw [loadShufflesOps_eq, shuffles_advice0Rows, List.range_eq_range']
  · rw [loadShufflesOps_eq, shuffles_advice1Rows, List.range_eq_range']
  · rw [loadShufflesOps_eq, shuffles_enabledRows, List.range_eq_range']
  · unfold synthesize_step
    rw [h1, h2]

/-- A step circuit over `Int` with mismatched sequence lengths. -/
def cWitnessB : MyStepCircuit Int :=
  { input_0 := [Value.known 3, Value.known 5, Value.known 9], input_1 := [30, 50],
    shuffle_0 := [Value.known 5, Value.known 3],
    shuffle_1 := [Value.known 50, Value.known 30, Value.known 7] }

theorem synthesize_min_rows_witness :
    enabledRows theConfig.s_input (loadInputsOps theConfig cWitnessB) = [0, 1] ∧
    synthesize_step 8 theConfig cWitnessB = StepOutcome.panicked :=
  ⟨by rw [(synthesize_min_rows Int cWitnessB 8 (by decide) (by decide)).2.2.1]; rfl,
   (synthesize_min_rows Int cWitnessB 8 (by decide) (by decide)).2.2.2.2.2.2⟩

/-- The driver's hard-coded primary step data (`src/main.rs:144-160`):
`input_0 = [1,2,4,1]`, `input_1 = [10,20,40,10]`, `shuffle_0 = [4,1,1,2]`,
`shuffle_1 = [40,10,10,20]`, each `u64` mapped into the scalar field. -/
def mainStepCircuit (F : Type) [Field F] : MyStepCircuit F :=
  { input_0 := ([1, 2, 4, 1] : List Nat).map fun e => Value.known (e : F),
    input_1 := ([10, 20, 40, 10] : List Nat).map fun e => (e : F),
    shuffle_0 := ([4, 1, 1, 2] : List Nat).map fun e => Value.known (e : F),
    shuffle_1 := ([40, 10, 10, 20] : List Nat).map fun e => Value.known (e : F) }

/-- C3 (the code panics): on the driver's concrete step data, with the primary
table capacity `2^17`, `synthesize_step` lays out both regions successfully and
then reaches the trailing `todo!()` — it terminates abnormally instead of
returning an output vector or a `SynthesisError`. -/
theorem synthesize_step_panics :
    synthesize_step (2 ^ 17) theConfig (mainStepCircuit (ZMod 101)) = StepOutcome.panicked := by
  decide

/-!
## The fold driver

`main` (`src/main.rs:143-219`) acquires the two commitment keys, builds the
public parameters, creates the IVC instance
(`IVC::new(..).expect("failed to create `IVC`")`), runs
`for step in 1..FOLD_STEP_COUNT { ivc.fold_step(..).expect("failed to run fold step") }`
and finally `ivc.verify(&pp).expect("failed to verify ivc")`.  The external
engine's results are abstracted as `Except` values; the driver is modelled as
the trace of engine invocations together with the run outcome (`.expect`
panics with the fixed message, a `": "`, and the engine error). -/

/-- An invocation of the external proving engine by the driver. -/
inductive DriverEvent where
  | ivcNew
  | foldStep (step : Nat)
  | verify
deriving DecidableEq

def DriverEvent.isFold : DriverEvent → Bool
  | DriverEvent.foldStep _ => true
  | _ => false

def DriverEvent.isVerify : DriverEvent → Bool
  | DriverEvent.verify => true
  | _ => false

/-- Outcome of a driver run: normal exit or a panic with its message. -/
inductive RunOutcome where
  | success
  | panicked (msg : String)
deriving DecidableEq

/-- The panic message of `.expect(msg)` on `Err(e)`. -/
def expectMsg (msg e : String) : String := msg ++ ": " ++ e

/-- Number of folding steps (`FOLD_STEP_COUNT`, `src/main.rs:21`). -/
def FOLD_STEP_COUNT : Nat := 5

/-- The fold loop over the given step indices: the `fold_step` invocations
performed (the failing one included) and the panic message, if any. -/
def runSteps (foldRes : Nat → Except String Unit) :
    List Nat → List DriverEvent × Option String
  | [] => ([], none)
  | s :: rest =>
    match foldRes s with
    | Except.error e =>
      ([DriverEvent.foldStep s], some (expectMsg "failed to run fold step" e))
    | Except.ok _ =>
      (DriverEvent.foldStep s :: (runSteps foldRes rest).1, (runSteps foldRes rest).2)

/-- The driver orchestration from IVC creation onwards (`src/main.rs:203-218`),
abstracting the engine results of creation, each fold step and verification. -/
def runFolding (N : Nat) (createRes : Except String Unit)
    (foldRes : Nat → Except String Unit) (verifyRes : Except String Unit) :
    List DriverEvent × RunOutcome :=
  match createRes with
  | Except.error e => ([], RunOutcome.panicked (expectMsg "failed to create `IVC`" e))
  | Except.ok _ =>
    match (runSteps foldRes (List.range' 1 (N - 1))).2 with
    | some m =>
      (DriverEvent.ivcNew :: (runSteps foldRes (List.range' 1 (N - 1))).1,
       RunOutcome.panicked m)
    | none =>
      match verifyRes with
      | Except.error e =>
        (DriverEvent.ivcNew :: (runSteps foldRes (List.range' 1 (N - 1))).1
          ++ [DriverEvent.verify],
         RunOutcome.panicked (expectMsg "failed to verify ivc" e))
      | Except.ok _ =>
        (DriverEvent.ivcNew :: (runSteps foldRes (List.range' 1 (N - 1))).1
          ++ [DriverEvent.verify],
         RunOutcome.success)

theorem runSteps_all_ok (foldRes : Nat → Except String Unit) :
    ∀ l : List Nat, (∀ s ∈ l, foldRes s = Except.ok ()) →
      runSteps foldRes l = (l.map DriverEvent.foldStep, none)
  | [], _ => rfl
  | s :: rest, h => by
    have hs : foldRes s = Except.ok () := h s (List.mem_cons_self s rest)
    have ih := runSteps_all_ok foldRes rest fun x hx => h x (List.mem_cons_of_mem s hx)
    simp [runSteps, hs, ih]

theorem runSteps_none_iff (foldRes : Nat → Except String Unit) :
    ∀ l : List Nat,
      (runSteps foldRes l).2 = none ↔ ∀ s ∈ l, foldRes s = Except.ok ()
  | [] => by simp [runSteps]
  | s :: rest => by
    cases hfs : foldRes s with
    | error e =>
      constructor
      · intro h
        exfalso
        rw [show (runSteps foldRes (s :: rest)).2
            = some (expectMsg "failed to run fold step" e) by simp [runSteps, hfs]] at h
        cases h
      · intro h
        exfalso
        have := h s (List.mem_cons_self s rest)
        rw [hfs] at this
        cases this
    | ok u =>
      cases u
      rw [show (runSteps foldRes (s :: rest)).2 = (runSteps foldRes rest).2 by
        simp [runSteps, hfs]]
      rw [runSteps_none_iff foldRes rest]
      constructor
      · intro h x hx
        rcases List.mem_cons.mp hx with rfl | hx2
        · exact hfs
        · exact h x hx2
      · intro h x hx
        exact h x (List.mem_cons_of_mem s hx)

/-- C6: with the engine succeeding throughout, the driver — after creating the
folding instance — invokes `fold_step` exactly `N - 1` times (steps `1` to
`N - 1` in order) and then invokes `verify` exactly once, and succeeds;
moreover (no partial-success state) a run succeeds exactly when creation, every
fold step `1 ≤ s < N` and the final verification all succeed. -/
theorem fold_driver_counts (N : Nat) (foldRes : Nat → Except String Unit)
    (hall : ∀ s, 1 ≤ s → s < N → foldRes s = Except.ok ()) :
    (runFolding N (Except.ok ()) foldRes (Except.ok ())).1
      = DriverEvent.ivcNew ::
        ((List.range' 1 (N - 1)).map DriverEvent.foldStep ++ [DriverEvent.verify]) ∧
    ((runFolding N (Except.ok ()) foldRes (Except.ok ())).1.countP DriverEvent.isFold)
      = N - 1 ∧
    ((runFolding N (Except.ok ()) foldRes (Except.ok ())).1.countP DriverEvent.isVerify)
      = 1 ∧
    (runFolding N (Except.ok ()) foldRes (Except.ok ())).2 = RunOutcome.success ∧
    (∀ (createRes verifyRes : Except String Unit) (g : Nat → Except String Unit),
      (runFolding N createRes g verifyRes).2 = RunOutcome.success ↔
        createRes = Except.ok () ∧ (∀ s, 1 ≤ s → s < N → g s = Except.ok ()) ∧
          verifyRes = Except.ok ()) := by
  have hmem : ∀ s ∈ List.range' 1 (N - 1), foldRes s = Except.ok () := by
    intro s hs
    rw [List.mem_range'_1] at hs
    exact hall s hs.1 (by omega)
  have hrs := runSteps_all_ok foldRes (List.range' 1 (N - 1)) hmem
  have htr : (runFolding N (Except.ok ()) foldRes (Except.ok ())).1
      = DriverEvent.ivcNew ::
        ((List.range' 1 (N - 1)).map DriverEvent.foldStep ++ [DriverEvent.verify]) := by
    simp [runFolding, hrs]
  have hout : (runFolding N (Except.ok ()) foldRes (Except.ok ())).2
      = RunOutcome.success := by
    simp [runFolding, hrs]
  refine ⟨htr, ?_, ?_, hout, ?_⟩
  · rw [htr]
    simp [List.countP_cons, List.countP_append, List.countP_map, DriverEvent.isFold,
      Function.comp_def, List.length_range']
  · rw [htr]
    simp [List.countP_cons, List.countP_append, List.countP_map, DriverEvent.isVerify,
      Function.comp_def]
  · intro createRes verifyRes g
    cases createRes with
    | error e => simp [runFolding]
    | ok u =>
      cases u
      cases hrs2 : (runSteps g (List.range' 1 (N - 1))).2 with
      | some m =>
        have hnot : ¬ (∀ s, 1 ≤ s → s < N → g s = Except.ok ()) := by
          intro hgl
          have hnone : (runSteps g (List.range' 1 (N - 1))).2 = none :=
            (runSteps_none_iff g (List.range' 1 (N - 1))).mpr (by
              intro s hs
              rw [List.mem_range'_1] at hs
              exact hgl s hs.1 (by omega))
          rw [hnone] at hrs2
          cases hrs2
        simp [runFolding, hrs2, hnot]
      | none =>
        have hg : ∀ s, 1 ≤ s → s < N → g s = Except.ok () := by
          intro s hs1 hs2
          exact (runSteps_none_iff g (List.range' 1 (N - 1))).mp hrs2 s (by
            rw [List.mem_range'_1]
            omega)
        cases verifyRes with
        | error e => simp [runFolding, hrs2]
        | ok u2 =>
          cases u2
          simp [runFolding, hrs2, hg]
          exact hg

theorem fold_driver_counts_witness :
    ((runFolding FOLD_STEP_COUNT (Except.ok ()) (fun _ => Except.ok ())
        (Except.ok ())).1.countP DriverEvent.isFold) = 4 ∧
    (runFolding FOLD_STEP_COUNT (Except.ok ()) (fun _ => Except.ok ()) (Except.ok ())).2
      = RunOutcome.success :=
  ⟨(fold_driver_counts FOLD_STEP_COUNT (fun _ => Except.ok ()) (fun _ _ _ => rfl)).2.1,
   (fold_driver_counts FOLD_STEP_COUNT (fun _ => Except.ok ()) (fun _ _ _ => rfl)).2.2.2.1⟩

theorem runSteps_append_fail (foldRes : Nat → Except String Unit) (e : String) (k : Nat)
    (hk : foldRes k = Except.error e) :
    ∀ (l1 l2 : List Nat), (∀ s ∈ l1, foldRes s = Except.ok ()) →
      runSteps foldRes (l1 ++ k :: l2)
        = (l1.map DriverEvent.foldStep ++ [DriverEvent.foldStep k],
           some (expectMsg "failed to run fold step" e))
  | [], l2, _ => by simp [runSteps, hk]
  | s :: rest, l2, h => by
    have hs : foldRes s = Except.ok () := h s (List.mem_cons_self s rest)
    have ih := runSteps_append_fail foldRes e k hk rest l2
      fun x hx => h x (List.mem_cons_of_mem s hx)
    simp [runSteps, hs, ih]

/-- C8 (amended): when a fold step fails, the driver terminates the run — the
trace stops at the failing `fold_step` invocation and `verify` is never
invoked — and the failure report is the fixed stage message
`"failed to run fold step"` together with the engine error; the failing step
index is not part of the report (step indices are printed only on success). -/
theorem fold_failure_aborts (N k : Nat) (e : String)
    (foldRes : Nat → Except String Unit) (verifyRes : Except String Unit)
    (h1 : 1 ≤ k) (h2 : k < N) (hk : foldRes k = Except.error e)
    (hbefore : ∀ s, 1 ≤ s → s < k → foldRes s = Except.ok ()) :
    (runFolding N (Except.ok ()) foldRes verifyRes).2
      = RunOutcome.panicked (expectMsg "failed to run fold step" e) ∧
    (runFolding N (Except.ok ()) foldRes verifyRes).1
      = DriverEvent.ivcNew ::
        ((List.range' 1 (k - 1)).map DriverEvent.foldStep ++ [DriverEvent.foldStep k]) ∧
    DriverEvent.verify ∉ (runFolding N (Except.ok ()) foldRes verifyRes).1 := by
  have hsplit : List.range' 1 (N - 1)
      = List.range' 1 (k - 1) ++ k :: List.range' (k + 1) (N - k - 1) := by
    have h3 : k :: List.range' (k + 1) (N - k - 1) = List.range' k (N - k) := by
      rw [show N - k = (N - k - 1) + 1 by omega]
      rfl
    rw [h3]
    have h4 := List.range'_append_1 1 (k - 1) (N - k)
    rw [show 1 + (k - 1) = k by omega] at h4
    rw [h4]
    congr 1
    omega
  have hmem : ∀ s ∈ List.range' 1 (k - 1), foldRes s = Except.ok () := by
    intro s hs
    rw [List.mem_range'_1] at hs
    exact hbefore s hs.1 (by omega)
  have hrs := runSteps_append_fail foldRes e k hk (List.range' 1 (k - 1))
    (List.range' (k + 1) (N - k - 1)) hmem
  rw [← hsplit] at hrs
  refine ⟨by simp [runFolding, hrs], by simp [runFolding, hrs], ?_⟩
  have htr : (runFolding N (Except.ok ()) foldRes verifyRes).1
      = DriverEvent.ivcNew ::
        ((List.range' 1 (k - 1)).map DriverEvent.foldStep ++ [DriverEvent.foldStep k]) := by
    simp [runFolding, hrs]
  rw [htr]
  simp [DriverEvent.verify]

/-- A fold-result oracle failing exactly at step `k` with engine error `"E"`. -/
def failAt (k : Nat) : Nat → Except String Unit :=
  fun s => if s = k then Except.error "E" else Except.ok ()

/-- C8 (counterexample): a run whose third fold step fails and a run whose
second fold step fails produce the identical failure report
`"failed to run fold step: E"` — the report does not determine (and hence does
not include) the index of the failing fold step. -/
theorem fold_failure_report_lacks_index :
    (runFolding 5 (Except.ok ()) (failAt 2) (Except.ok ())).2
      = RunOutcome.panicked "failed to run fold step: E" ∧
    (runFolding 5 (Except.ok ()) (failAt 3) (Except.ok ())).2
      = RunOutcome.panicked "failed to run fold step: E" := by
  constructor <;> rfl

theorem fold_failure_aborts_witness :
    (runFolding 5 (Except.ok ()) (failAt 2) (Except.ok ())).2
      = RunOutcome.panicked (expectMsg "failed to run fold step" "E") ∧
    DriverEvent.verify ∉ (runFolding 5 (Except.ok ()) (failAt 2) (Except.ok ())).1 :=
  ⟨(fold_failure_aborts 5 2 "E" (failAt 2) (Except.ok ()) (by omega) (by omega) rfl
      (fun s hs1 hs2 => by
        rw [show s = 1 by omega]
        rfl)).1,
   (fold_failure_aborts 5 2 "E" (failAt 2) (Except.ok ()) (by omega) (by omega) rfl
      (fun s hs1 hs2 => by
        rw [show s = 1 by omega]
        rfl)).2.2⟩

/-!
## Commitment-key acquisition

`main` (`src/main.rs:164-192`) loads both commitment keys through
`unsafe { CommitmentKey::load_or_setup_cache(key_cache, name, size) }`; the
source's own NOTE records that "the key files are not serialized, but reflected
directly from memory", and the safety comment is the bare assumption
"because the cache file is correct".  We record the acquisition as its event
sequence. -/

/-- Key size constants (`src/main.rs:35`, `src/main.rs:62`). -/
def PRIMARY_COMMITMENT_KEY_SIZE : Nat := 20

def SECONDARY_COMMITMENT_KEY_SIZE : Nat := 20

/-- An event in the driver's commitment-key acquisition: a raw (unchecked,
memory-reflected) load-or-setup of a named key, or a validation of a loaded
key against a requested name and size. -/
inductive KeySetupEvent where
  | loadOrSetupRaw (name : String) (size : Nat)
  | validated (name : String) (size : Nat)
deriving DecidableEq

def KeySetupEvent.isRawLoad : KeySetupEvent → Bool
  | KeySetupEvent.loadOrSetupRaw _ _ => true
  | _ => false

def KeySetupEvent.isValidated : KeySetupEvent → Bool
  | KeySetupEvent.validated _ _ => true
  | _ => false

/-- The key-acquisition sequence performed by `main`: two raw load-or-setup
calls and nothing else. -/
def mainKeySetupEvents : List KeySetupEvent :=
  [KeySetupEvent.loadOrSetupRaw "bn256" PRIMARY_COMMITMENT_KEY_SIZE,
   KeySetupEvent.loadOrSetupRaw "grumpkin" SECONDARY_COMMITMENT_KEY_SIZE]

/-- The property claimed of the acquisition: every raw key load is matched by a
validation event for the same name and size. -/
def allLoadsValidated (evs : List KeySetupEvent) : Prop :=
  ∀ ev ∈ evs, match ev with
    | KeySetupEvent.loadOrSetupRaw name size => KeySetupEvent.validated name size ∈ evs
    | _ => True

/-- C7 (counterexample): the driver's key acquisition validates no loaded key —
already the first load, `("bn256", 20)`, has no matching validation event. -/
theorem key_loads_not_validated : ¬ allLoadsValidated mainKeySetupEvents := by
  intro h
  have hb := h (KeySetupEvent.loadOrSetupRaw "bn256" PRIMARY_COMMITMENT_KEY_SIZE)
    (List.mem_cons_self _ _)
  simp only [mainKeySetupEvents, List.mem_cons, List.not_mem_nil] at hb
  rcases hb with hb | hb | hb
  · cases hb
  · cases hb
  · cases hb

/-- C7 (amended): the driver obtains each commitment key through a raw,
unchecked load-or-setup — `("bn256", 20)` and `("grumpkin", 20)` — with no
size or algorithm-tag validation before use; the integrity of the cache file is
an assumed precondition of the unsafe load, not a checked property. -/
theorem key_setup_raw_loads :
    mainKeySetupEvents =
      [KeySetupEvent.loadOrSetupRaw "bn256" 20,
       KeySetupEvent.loadOrSetupRaw "grumpkin" 20] ∧
    mainKeySetupEvents.countP KeySetupEvent.isRawLoad = 2 ∧
    mainKeySetupEvents.countP KeySetupEvent.isValidated = 0 :=
  ⟨rfl, rfl, rfl⟩

/-!
## The driver's hard-coded step data (C9)
-/

/-- Look up a column value by row index, `0` outside the assigned rows. -/
def colOfList {F : Type} [Field F] (l : List F) (r : Int) : F :=
  if 0 ≤ r then l.getD r.toNat 0 else 0

/-- The table assignment produced by synthesizing the driver's hard-coded step
data: the four columns carry the four data vectors on rows 0-3, and both
selectors are enabled exactly on rows 0-3. -/
def mainAssignment (F : Type) [Field F] : Assignment F :=
  { advice := fun c r =>
      if c = theConfig.input_0 then
        colOfList (([1, 2, 4, 1] : List Nat).map fun e => (e : F)) r
      else if c = theConfig.shuffle_0 then
        colOfList (([4, 1, 1, 2] : List Nat).map fun e => (e : F)) r
      else if c = theConfig.shuffle_1 then
        colOfList (([40, 10, 10, 20] : List Nat).map fun e => (e : F)) r
      else 0,
    fixed := fun c r =>
      if c = theConfig.input_1 then
        colOfList (([10, 20, 40, 10] : List Nat).map fun e => (e : F)) r
      else 0,
    selector := fun _ r => decide (0 ≤ r ∧ r < 4) }

/-- The permutation of the 4 data rows carrying the left pairs to the right
pairs: right row `j` holds the left pair of row `mainPerm j`. -/
def mainPerm : Equiv.Perm (Fin 4) :=
  { toFun := ![2, 0, 3, 1], invFun := ![1, 3, 0, 2],
    left_inv := by
      intro x
      fin_cases x <;> rfl,
    right_inv := by
      intro x
      fin_cases x <;> rfl }

/-- C9: the driver's hard-coded primary step data consists of left pairs
`(1,10),(2,20),(4,40),(1,10)` and right pairs `(4,40),(1,10),(1,10),(2,20)`;
the multiset of right pairs equals the multiset of left pairs (same multiset,
different order), and the registered shuffle constraint is satisfied by the
induced assignment on the 4 data rows. -/
theorem main_data_satisfiable (F : Type) [Field F] [DecidableEq F] :
    ((((mainStepCircuit F).shuffle_0.zip (mainStepCircuit F).shuffle_1 :
        List (Value F × Value F)) : Multiset (Value F × Value F))
      = (((mainStepCircuit F).input_0.zip ((mainStepCircuit F).input_1.map Value.known) :
        List (Value F × Value F)) : Multiset (Value F × Value F))) ∧
    shuffleSat theShufflePairs (mainAssignment F) 4 := by
  constructor
  · apply Multiset.coe_eq_coe.mpr
    show List.Perm
      [(Value.known ((4 : Nat) : F), Value.known ((40 : Nat) : F)),
       (Value.known ((1 : Nat) : F), Value.known ((10 : Nat) : F)),
       (Value.known ((1 : Nat) : F), Value.known ((10 : Nat) : F)),
       (Value.known ((2 : Nat) : F), Value.known ((20 : Nat) : F))]
      [(Value.known ((1 : Nat) : F), Value.known ((10 : Nat) : F)),
       (Value.known ((2 : Nat) : F), Value.known ((20 : Nat) : F)),
       (Value.known ((4 : Nat) : F), Value.known ((40 : Nat) : F)),
       (Value.known ((1 : Nat) : F), Value.known ((10 : Nat) : F))]
    exact (List.Perm.swap _ _ _).trans
      (List.Perm.cons _
        ((List.Perm.cons _ (List.Perm.swap _ _ _)).trans (List.Perm.swap _ _ _)))
  · refine shuffleSat_of_perm (mainAssignment F) 4 mainPerm ?_ ?_ ?_ ?_
    · intro i hi
      simp [mainAssignment]
      omega
    · intro i hi
      simp [mainAssignment]
      omega
    · intro j
      fin_cases j <;> rfl
    · intro j
      fin_cases j <;> rfl

theorem main_data_satisfiable_witness :
    shuffleSat theShufflePairs (mainAssignment (ZMod 101)) 4 :=
  (main_data_satisfiable (ZMod 101)).2

/-!
## The chained (Variant B) step circuit, modelled from the spec

The chained variant described in spec §4.3 is not present under `src/`: the
`synthesize_step` in `src/main.rs` is the unchained variant whose output
derivation is left as a placeholder.  The following definitions are therefore
modelled from the spec's words.
-/

/-- Modelled from the spec: the chained (Variant B) step-circuit state of
§4.3, absent from `src/` — "a fixed-length constant sequence (length L =
arity A) for the left pair's second column, and a witness sequence pair for
the right (shuffle) side". -/
structure ChainedStepCircuit (A : Nat) (F : Type) where
  constants : Fin A → F
  shuffle_0 : Fin A → Value F
  shuffle_1 : Fin A → Value F

/-- Modelled from the spec: the "load inputs" region of the chained synthesize
(§4.3) — for each row `i`, copy the prior step's output cell `z_i[i]` into the
left witness column (an equality-preserving copy), pair it with the constant
at the same row, enable `s_input`. -/
def chainedInputsOps {A : Nat} {F : Type} (cfg : ShuffleConfig)
    (c : ChainedStepCircuit A F) (z : Fin A → AssignedCell F) : List (RegionOp F) :=
  (List.finRange A).flatMap fun i =>
    [RegionOp.copyAdviceFrom (z i) cfg.input_0 i.val,
     RegionOp.assignFixed cfg.input_1 i.val (Value.known (c.constants i)),
     RegionOp.enable cfg.s_input i.val]

/-- Modelled from the spec: the "load shuffles" region of the chained
synthesize (§4.3) — per row, assign the right witness pair, enable
`s_shuffle`, and collect the first right-column cell as that row's output. -/
def chainedShufflesStep {A : Nat} {F : Type} (cfg : ShuffleConfig)
    (c : ChainedStepCircuit A F) : List (List (RegionOp F) × AssignedCell F) :=
  (List.finRange A).map fun i =>
    ([RegionOp.assignAdvice cfg.shuffle_0 i.val (c.shuffle_0 i),
      RegionOp.assignAdvice cfg.shuffle_1 i.val (c.shuffle_1 i),
      RegionOp.enable cfg.s_shuffle i.val],
     { column := cfg.shuffle_0, row := i.val, value := c.shuffle_0 i })

/-- Modelled from the spec: the chained (Variant B) synthesize of §4.3 — the
two regions it lays out and the returned `z_out`, the collected
first-right-column cells in row order. -/
def chainedSynthesize {A : Nat} {F : Type} (cfg : ShuffleConfig)
    (c : ChainedStepCircuit A F) (z : Fin A → AssignedCell F) :
    List (String × List (RegionOp F)) × List (AssignedCell F) :=
  ([("load inputs", chainedInputsOps cfg c z),
    ("load shuffles", ((chainedShufflesStep cfg c).map Prod.fst).flatten)],
   (chainedShufflesStep cfg c).map Prod.snd)

/-- C2 (modelled from the spec): the chained (Variant B) synthesize copies the
prior step's output cell `z_i[i]` into the left witness column at row `i`
inside the "load inputs" region, and returns `z_out` equal to the collected
first-right-column cells in row order, of length exactly `A` — each cell being
exactly the row's `shuffle_0` assignment performed in the "load shuffles"
region. -/
theorem chained_synthesize_z_out (A : Nat) (F : Type)
    (c : ChainedStepCircuit A F) (z : Fin A → AssignedCell F) :
    ((chainedSynthesize theConfig c z).2).length = A ∧
    (chainedSynthesize theConfig c z).2 = (List.finRange A).map (fun i =>
      { column := theConfig.shuffle_0, row := i.val, value := c.shuffle_0 i }) ∧
    (∀ i : Fin A,
      RegionOp.assignAdvice theConfig.shuffle_0 i.val (c.shuffle_0 i)
        ∈ ((chainedShufflesStep theConfig c).map Prod.fst).flatten) ∧
    (chainedSynthesize theConfig c z).1 =
      [("load inputs", chainedInputsOps theConfig c z),
       ("load shuffles", ((chainedShufflesStep theConfig c).map Prod.fst).flatten)] ∧
    (∀ i : Fin A,
      RegionOp.copyAdviceFrom (z i) theConfig.input_0 i.val
        ∈ chainedInputsOps theConfig c z) := by
  refine ⟨?_, ?_, ?_, rfl, ?_⟩
  · simp [chainedSynthesize, chainedShufflesStep]
  · simp [chainedSynthesize, chainedShufflesStep, List.map_map]
  · intro i
    simp only [List.mem_flatten, List.mem_map, chainedShufflesStep]
    exact ⟨_, ⟨_, ⟨i, List.mem_finRange i, rfl⟩, rfl⟩, by simp⟩
  · intro i
    simp only [chainedInputsOps, List.mem_flatMap]
    exact ⟨i, List.mem_finRange i, by simp⟩

/-- A concrete chained circuit at arity 2 over `Int`. -/
def cChainW : ChainedStepCircuit 2 Int :=
  { constants := ![10, 20],
    shuffle_0 := ![Value.known 3, Value.known 4],
    shuffle_1 := ![Value.known 30, Value.known 40] }

/-- Concrete prior-step output cells. -/
def zChainW : Fin 2 → AssignedCell Int :=
  ![{ column := 7, row := 0, value := Value.known 3 },
    { column := 7, row := 1, value := Value.known 4 }]

theorem chained_synthesize_z_out_witness :
    ((chainedSynthesize theConfig cChainW zChainW).2).length = 2 ∧
    RegionOp.copyAdviceFrom (zChainW 0) theConfig.input_0 0
      ∈ chainedInputsOps theConfig cChainW zChainW :=
  ⟨(chained_synthesize_z_out 2 Int cChainW zChainW).1,
   (chained_synthesize_z_out 2 Int cChainW zChainW).2.2.2.2 0⟩

end SiriusQuickstart
